import Mathlib

/-!
Verification of the DoD step-up cost-basis calculator
(`DoD_Cost_Basis_Calculator.py`) against its specification.

Dates are modelled as integers counting calendar days from an epoch chosen
so that day 0 is a Monday; then Python's `date.weekday()` (Monday = 0,
Sunday = 6) is `d % 7`.  Prices are modelled as rationals and Python's
builtin `round` (banker's rounding, round-half-to-even) as `pyRound`.
The two external collaborators are explicit parameters: the NYSE trading
calendar (`Calendar`) and the yfinance price-data provider, a function
from ticker and day to either a fault (`Except.error`), no data
(`Except.ok none`, an empty history frame), or a single daily bar.
-/

/-- Python `date.weekday()`: Monday = 0 … Sunday = 6, with day 0 a Monday. -/
def weekday (d : ℤ) : ℤ := d % 7

/-- Round-half-to-even to an integer, as Python's builtin `round` does. -/
def roundHalfEven (q : ℚ) : ℤ :=
  let n := ⌊q⌋
  if q - n < 1 / 2 then n
  else if 1 / 2 < q - n then n + 1
  else if n % 2 = 0 then n else n + 1

/-- Python `round(x, ndigits)` on exact rationals: round-half-to-even at
`ndigits` decimal digits. -/
def pyRound (x : ℚ) (ndigits : ℕ) : ℚ :=
  (roundHalfEven (x * 10 ^ ndigits) : ℚ) / 10 ^ ndigits

/-- The NYSE trading-calendar collaborator (`pandas_market_calendars`,
`mcal.get_calendar('NYSE')`).  `valid d` says `nyse.valid_days(start_date=d,
end_date=d)` is nonempty, i.e. `d` is a trading day.  The calendar of a real
exchange is only ever open on weekdays (`valid_weekday`), and trading days
are unbounded in both directions (`has_next`, `has_prev`), which is what
makes the source's unbounded day-stepping loops terminate. -/
structure Calendar where
  valid : ℤ → Bool
  valid_weekday : ∀ d : ℤ, valid d = true → weekday d < 5
  has_next : ∀ d : ℤ, ∃ k : ℕ, valid (d + 1 + (k : ℤ)) = true
  has_prev : ∀ d : ℤ, ∃ k : ℕ, valid (d - 1 - (k : ℤ)) = true

/-- One daily price bar as returned by `security.history(...)` for a single
day: the `Open`, `High`, `Low`, `Close` columns. -/
structure Bar where
  Open : ℚ
  High : ℚ
  Low : ℚ
  Close : ℚ
deriving DecidableEq

/-- Source `get_next_business_day` (lines 14-20): starting at `date + 1`,
step forward one calendar day at a time until the NYSE calendar reports a
valid trading day.  The loop's result is the first valid day strictly after
`date`, i.e. `date + 1 +` the least admissible offset. -/
def get_next_business_day (cal : Calendar) (date : ℤ) : ℤ :=
  date + 1 + (Nat.find (cal.has_next date) : ℤ)

/-- Source `get_previous_business_day` (lines 23-29): starting at
`date - 1`, step backward one calendar day at a time until the NYSE
calendar reports a valid trading day. -/
def get_previous_business_day (cal : Calendar) (date : ℤ) : ℤ :=
  date - 1 - (Nat.find (cal.has_prev date) : ℤ)

/-- Fuel-indexed transcription of the forward `while` loop of
`get_next_business_day`: `none` means the fuel ran out before a valid day
was found. -/
def next_loop (valid : ℤ → Bool) : ℕ → ℤ → Option ℤ
  | 0, _ => none
  | fuel + 1, day => if valid day then some day else next_loop valid fuel (day + 1)

/-- Fuel-indexed transcription of the backward `while` loop of
`get_previous_business_day`. -/
def prev_loop (valid : ℤ → Bool) : ℕ → ℤ → Option ℤ
  | 0, _ => none
  | fuel + 1, day => if valid day then some day else prev_loop valid fuel (day - 1)

/-- Python `str.lower()` on the ASCII ticker-type strings this program
handles: lower-case each character. -/
def py_lower (s : String) : String :=
  ⟨s.data.map Char.toLower⟩

/-- Source `is_mutual_fund` (lines 9-11): `ticker_type.lower() == 'mutual
fund'`. -/
def is_mutual_fund (ticker_type : String) : Bool :=
  py_lower ticker_type == "mutual fund"

/-- The dictionary returned by `calculate_security_price`: a price (absent
on failure), an explanatory note, and nine detail fields. -/
structure Result where
  Price : Option ℚ
  Note : String
  Close : Option ℚ
  High : Option ℚ
  Low : Option ℚ
  Friday_High : Option ℚ
  Friday_Low : Option ℚ
  Friday_Close : Option ℚ
  Monday_High : Option ℚ
  Monday_Low : Option ℚ
  Monday_Close : Option ℚ
deriving DecidableEq

/-- The all-`None` dictionary with note "No data available for this date"
(source lines 49-61 and 134-146). -/
def noDataResult : Result :=
  { Price := none, Note := "No data available for this date",
    Close := none, High := none, Low := none,
    Friday_High := none, Friday_Low := none, Friday_Close := none,
    Monday_High := none, Monday_Low := none, Monday_Close := none }

/-- The all-`None` dictionary with note "No data available for this date
range" (source lines 90-102). -/
def noRangeResult : Result :=
  { Price := none, Note := "No data available for this date range",
    Close := none, High := none, Low := none,
    Friday_High := none, Friday_Low := none, Friday_Close := none,
    Monday_High := none, Monday_Low := none, Monday_Close := none }

/-- The dictionary built by the `except` handler (source lines 170-183):
`f"Error processing {ticker}: {str(e)}"`. -/
def errResult (ticker e : String) : Result :=
  { Price := none, Note := "Error processing " ++ ticker ++ ": " ++ e,
    Close := none, High := none, Low := none,
    Friday_High := none, Friday_Low := none, Friday_Close := none,
    Monday_High := none, Monday_Low := none, Monday_Close := none }

/-- The mutual-fund success dictionary (source lines 66-78); `close_price`
has already been rounded at line 64. -/
def mfResult (is_weekend_or_holiday : Bool) (close_price : ℚ) : Result :=
  { Price := some close_price,
    Note := "Mutual Fund - Using " ++
      (if is_weekend_or_holiday then "Friday" else "date of death") ++
      " closing price",
    Close := some close_price, High := none, Low := none,
    Friday_High := none, Friday_Low := none,
    Friday_Close := if is_weekend_or_holiday then some close_price else none,
    Monday_High := none, Monday_Low := none, Monday_Close := none }

/-- The weekend/holiday stock success dictionary (source lines 112-129):
the six arguments are the already-rounded per-day prices of lines 105-110,
and the final price averages the rounded averages and rounds once more. -/
def weekendResult (decimal_places : ℕ)
    (friday_high friday_low friday_close monday_high monday_low monday_close : ℚ) :
    Result :=
  let friday_avg := (friday_high + friday_low) / 2
  let monday_avg := (monday_high + monday_low) / 2
  { Price := some (pyRound ((friday_avg + monday_avg) / 2) decimal_places),
    Note := "Weekend/Holiday price - Average of Previous/Next Business Day",
    Close := none, High := none, Low := none,
    Friday_High := some friday_high, Friday_Low := some friday_low,
    Friday_Close := some friday_close,
    Monday_High := some monday_high, Monday_Low := some monday_low,
    Monday_Close := some monday_close }

/-- The regular-trading-day stock success dictionary (source lines
148-168): arguments are the already-rounded prices of lines 149-151. -/
def dayResult (decimal_places : ℕ) (high_price low_price close_price : ℚ) :
    Result :=
  { Price := some (pyRound ((high_price + low_price) / 2) decimal_places),
    Note := "Regular Trading Day High/Low Average",
    Close := some close_price, High := some high_price, Low := some low_price,
    Friday_High := none, Friday_Low := none, Friday_Close := none,
    Monday_High := none, Monday_Low := none, Monday_Close := none }

/-- Source `calculate_security_price` (lines 32-183).  `provider ticker d`
models `yf.Ticker(ticker).history(start=d, end=d + timedelta(days=1))`:
`Except.error e` is a raised exception (caught by the `except` at line 170,
first raise wins), `Except.ok none` an empty frame, `Except.ok (some bar)`
one daily bar.  Line 37 computes `is_weekend_or_holiday` from the weekday
and the NYSE calendar. -/
def calculate_security_price (cal : Calendar)
    (provider : String → ℤ → Except String (Option Bar))
    (ticker ticker_type : String) (date_of_death : ℤ) (decimal_places : ℕ) :
    Result :=
  let security := provider ticker
  let is_weekend_or_holiday :=
    decide (weekday date_of_death ≥ 5) || !cal.valid date_of_death
  if is_mutual_fund ticker_type then
    let pricing_date :=
      if is_weekend_or_holiday then get_previous_business_day cal date_of_death
      else date_of_death
    match security pricing_date with
    | .error e => errResult ticker e
    | .ok none => noDataResult
    | .ok (some hist) =>
        mfResult is_weekend_or_holiday (pyRound hist.Close decimal_places)
  else
    if is_weekend_or_holiday then
      let friday := get_previous_business_day cal date_of_death
      let monday := get_next_business_day cal date_of_death
      match security friday with
      | .error e => errResult ticker e
      | .ok friday_hist =>
        match security monday with
        | .error e => errResult ticker e
        | .ok monday_hist =>
          match friday_hist, monday_hist with
          | some fbar, some mbar =>
              weekendResult decimal_places
                (pyRound fbar.High decimal_places)
                (pyRound fbar.Low decimal_places)
                (pyRound fbar.Close decimal_places)
                (pyRound mbar.High decimal_places)
                (pyRound mbar.Low decimal_places)
                (pyRound mbar.Close decimal_places)
          | _, _ => noRangeResult
    else
      match security date_of_death with
      | .error e => errResult ticker e
      | .ok none => noDataResult
      | .ok (some hist) =>
          dayResult decimal_places
            (pyRound hist.High decimal_places)
            (pyRound hist.Low decimal_places)
            (pyRound hist.Close decimal_places)

/-- One input spreadsheet row: the Ticker, Shares and Type columns
(source lines 206, 213-214).  The free-text Type column is the field
`ticker_type`. -/
structure Row where
  Ticker : String
  Shares : ℚ
  ticker_type : String

/-- One output row of the results table built by `main`
(source lines 217-238).  Detail columns that a branch does not add to the
dictionary are `none` here. -/
structure MainRecord where
  Date : ℤ
  Ticker : String
  Shares : ℚ
  Price : Option ℚ
  Total_Value : Option ℚ
  Closing_Price : Option ℚ
  Friday_High : Option ℚ
  Friday_Low : Option ℚ
  Monday_High : Option ℚ
  Monday_Low : Option ℚ
  High : Option ℚ
  Low : Option ℚ
  Note : String
deriving DecidableEq

/-- The body of the per-row loop in `main` (source lines 213-239).
`Total Value` is `round(price * shares, decimal_places) if price else
None`: Python truthiness, so it is `None` both when `price` is `None` and
when `price` is the float `0.0`. -/
def process_row (cal : Calendar)
    (provider : String → ℤ → Except String (Option Bar))
    (date_of_death : ℤ) (decimal_places : ℕ) (row : Row) : MainRecord :=
  let result_dict :=
    calculate_security_price cal provider row.Ticker row.ticker_type
      date_of_death decimal_places
  let price := result_dict.Price
  let total_value : Option ℚ :=
    match price with
    | none => none
    | some p =>
        if p = 0 then none
        else some (pyRound (p * row.Shares) decimal_places)
  if is_mutual_fund row.ticker_type then
    { Date := date_of_death, Ticker := row.Ticker, Shares := row.Shares,
      Price := price, Total_Value := total_value,
      Closing_Price := result_dict.Close,
      Friday_High := none, Friday_Low := none,
      Monday_High := none, Monday_Low := none,
      High := none, Low := none, Note := result_dict.Note }
  else if result_dict.Friday_High.isSome then
    { Date := date_of_death, Ticker := row.Ticker, Shares := row.Shares,
      Price := price, Total_Value := total_value,
      Closing_Price := none,
      Friday_High := result_dict.Friday_High,
      Friday_Low := result_dict.Friday_Low,
      Monday_High := result_dict.Monday_High,
      Monday_Low := result_dict.Monday_Low,
      High := none, Low := none, Note := result_dict.Note }
  else
    { Date := date_of_death, Ticker := row.Ticker, Shares := row.Shares,
      Price := price, Total_Value := total_value,
      Closing_Price := none,
      Friday_High := none, Friday_Low := none,
      Monday_High := none, Monday_Low := none,
      High := result_dict.High, Low := result_dict.Low,
      Note := result_dict.Note }

/-- The whole per-row loop of `main` (source lines 212-239): one appended
record per input row, in order. -/
def process_rows (cal : Calendar)
    (provider : String → ℤ → Except String (Option Bar))
    (date_of_death : ℤ) (decimal_places : ℕ) (rows : List Row) :
    List MainRecord :=
  rows.map (process_row cal provider date_of_death decimal_places)

/-- A concrete trading calendar for witnesses: open exactly on weekdays
(Monday through Friday of the day-0-Monday epoch). -/
def weekdayCal : Calendar where
  valid d := decide (d % 7 < 5)
  valid_weekday d h := by
    unfold weekday
    simpa using h
  has_next d := by
    refine ⟨if (d + 1) % 7 < 5 then 0 else (7 - (d + 1) % 7).toNat, ?_⟩
    simp only [decide_eq_true_eq]
    split <;> omega
  has_prev d := by
    refine ⟨if (d - 1) % 7 < 5 then 0 else ((d - 1) % 7 - 4).toNat, ?_⟩
    simp only [decide_eq_true_eq]
    split <;> omega

/-- A provider that always succeeds with the same bar, whatever the ticker
and date. -/
def constBarProvider (bar : Bar) : String → ℤ → Except String (Option Bar) :=
  fun _ _ => .ok (some bar)

/-- A provider that always returns an empty history frame. -/
def emptyProvider : String → ℤ → Except String (Option Bar) :=
  fun _ _ => .ok none

/-- A provider that always raises, modelling a network or lookup fault. -/
def failProvider (msg : String) : String → ℤ → Except String (Option Bar) :=
  fun _ _ => .error msg

/-- Witness bar whose prices are all 1. -/
def b1 : Bar := ⟨1, 1, 1, 1⟩

/-- Witness bar with distinct high/low/close. -/
def b2 : Bar := ⟨100, 101, 99, 100⟩

/-- Witness bar whose prices are all 0. -/
def b0 : Bar := ⟨0, 0, 0, 0⟩

/-- Line 37 of the source simplifies: since the NYSE calendar is only open
on weekdays, `weekday >= 5 or not valid` is equivalent to `not valid`. -/
lemma weekend_flag (cal : Calendar) (d : ℤ) :
    (decide (weekday d ≥ 5) || !cal.valid d) = !cal.valid d := by
  cases h : cal.valid d
  · simp
  · have hw := cal.valid_weekday d h
    simp [decide_eq_false (by omega : ¬ weekday d ≥ 5)]

/-- Mutual-fund branch of `calculate_security_price` (lines 40-78), as a
function of the provider's answer at the pricing date. -/
lemma calc_mf (cal : Calendar) (provider : String → ℤ → Except String (Option Bar))
    (ticker tt : String) (dod : ℤ) (dp : ℕ) (hmf : is_mutual_fund tt = true) :
    calculate_security_price cal provider ticker tt dod dp =
      match provider ticker
          (if cal.valid dod = true then dod else get_previous_business_day cal dod) with
      | .error e => errResult ticker e
      | .ok none => noDataResult
      | .ok (some hist) => mfResult (!cal.valid dod) (pyRound hist.Close dp) := by
  simp only [calculate_security_price]
  rw [weekend_flag]
  cases hval : cal.valid dod <;> simp [hmf, hval]

/-- Regular-trading-day stock branch (lines 130-168). -/
lemma calc_day (cal : Calendar) (provider : String → ℤ → Except String (Option Bar))
    (ticker tt : String) (dod : ℤ) (dp : ℕ)
    (hmf : is_mutual_fund tt = false) (hval : cal.valid dod = true) :
    calculate_security_price cal provider ticker tt dod dp =
      match provider ticker dod with
      | .error e => errResult ticker e
      | .ok none => noDataResult
      | .ok (some hist) =>
          dayResult dp (pyRound hist.High dp) (pyRound hist.Low dp)
            (pyRound hist.Close dp) := by
  simp only [calculate_security_price]
  rw [weekend_flag]
  simp [hmf, hval]

/-- Weekend/holiday stock branch (lines 81-129): the previous business
day is fetched first, then the next, and any raise short-circuits. -/
lemma calc_weekend (cal : Calendar) (provider : String → ℤ → Except String (Option Bar))
    (ticker tt : String) (dod : ℤ) (dp : ℕ)
    (hmf : is_mutual_fund tt = false) (hval : cal.valid dod = false) :
    calculate_security_price cal provider ticker tt dod dp =
      match provider ticker (get_previous_business_day cal dod) with
      | .error e => errResult ticker e
      | .ok friday_hist =>
        match provider ticker (get_next_business_day cal dod) with
        | .error e => errResult ticker e
        | .ok monday_hist =>
          match friday_hist, monday_hist with
          | some fbar, some mbar =>
              weekendResult dp (pyRound fbar.High dp) (pyRound fbar.Low dp)
                (pyRound fbar.Close dp) (pyRound mbar.High dp)
                (pyRound mbar.Low dp) (pyRound mbar.Close dp)
          | _, _ => noRangeResult := by
  simp only [calculate_security_price]
  rw [weekend_flag]
  simp [hmf, hval]

/-- A note describing a data-unavailable or error condition: one of the two
fixed no-data messages or an "Error processing ..." message. -/
def isFailureNote (n : String) : Prop :=
  n = "No data available for this date" ∨
  n = "No data available for this date range" ∨
  ∃ s : String, n = "Error processing " ++ s

/-- All nine detail fields of the result dictionary are absent. -/
def detailsNone (r : Result) : Prop :=
  r.Close = none ∧ r.High = none ∧ r.Low = none ∧
  r.Friday_High = none ∧ r.Friday_Low = none ∧ r.Friday_Close = none ∧
  r.Monday_High = none ∧ r.Monday_Low = none ∧ r.Monday_Close = none

/-- Only the mutual-fund detail variant (the closing price) is populated. -/
def mfOnly (r : Result) : Prop :=
  (∃ c, r.Close = some c) ∧ r.High = none ∧ r.Low = none ∧
  r.Friday_High = none ∧ r.Friday_Low = none ∧ r.Friday_Close = none ∧
  r.Monday_High = none ∧ r.Monday_Low = none ∧ r.Monday_Close = none

/-- The mutual-fund closing price is populated and mirrored into the
`Friday_Close` field; no other detail field is populated. -/
def mfWeekendOnly (r : Result) : Prop :=
  (∃ c, r.Close = some c ∧ r.Friday_Close = some c) ∧
  r.High = none ∧ r.Low = none ∧
  r.Friday_High = none ∧ r.Friday_Low = none ∧
  r.Monday_High = none ∧ r.Monday_Low = none ∧ r.Monday_Close = none

/-- Only the same-day stock variant (high/low/close) is populated. -/
def dayOnly (r : Result) : Prop :=
  (∃ h l c, r.High = some h ∧ r.Low = some l ∧ r.Close = some c) ∧
  r.Friday_High = none ∧ r.Friday_Low = none ∧ r.Friday_Close = none ∧
  r.Monday_High = none ∧ r.Monday_Low = none ∧ r.Monday_Close = none

/-- Only the weekend/holiday stock variant (the six prior-day and next-day
fields) is populated. -/
def weekendOnly (r : Result) : Prop :=
  (∃ fh fl fc mh ml mc, r.Friday_High = some fh ∧ r.Friday_Low = some fl ∧
    r.Friday_Close = some fc ∧ r.Monday_High = some mh ∧
    r.Monday_Low = some ml ∧ r.Monday_Close = some mc) ∧
  r.Close = none ∧ r.High = none ∧ r.Low = none

lemma head_append (a b : String) (c : Char) (h : a.data.head? = some c) :
    (a ++ b).data.head? = some c := by
  rw [String.data_append]
  cases hdata : a.data with
  | nil => rw [hdata] at h; cases h
  | cons x xs => rw [hdata] at h; simp_all

lemma not_failure_note (n : String) (h0 : n.data.head? ≠ some 'E')
    (h1 : n ≠ "No data available for this date")
    (h2 : n ≠ "No data available for this date range") : ¬ isFailureNote n := by
  rintro (rfl | rfl | ⟨s, rfl⟩)
  · exact h1 rfl
  · exact h2 rfl
  · exact h0 (head_append "Error processing " s 'E' rfl)

lemma err_note_failure (t e : String) : isFailureNote (errResult t e).Note := by
  refine Or.inr (Or.inr ⟨t ++ (": " ++ e), ?_⟩)
  simp only [errResult, String.append_assoc]

lemma mf_note_not_failure (b : Bool) (c : ℚ) :
    ¬ isFailureNote (mfResult b c).Note := by
  cases b
  · exact not_failure_note
      ("Mutual Fund - Using " ++ "date of death" ++ " closing price")
      (by decide) (by decide) (by decide)
  · exact not_failure_note
      ("Mutual Fund - Using " ++ "Friday" ++ " closing price")
      (by decide) (by decide) (by decide)

lemma day_note_not_failure (dp : ℕ) (h l c : ℚ) :
    ¬ isFailureNote (dayResult dp h l c).Note :=
  not_failure_note "Regular Trading Day High/Low Average"
    (by decide) (by decide) (by decide)

lemma weekend_note_not_failure (dp : ℕ) (fh fl fc mh ml mc : ℚ) :
    ¬ isFailureNote (weekendResult dp fh fl fc mh ml mc).Note :=
  not_failure_note "Weekend/Holiday price - Average of Previous/Next Business Day"
    (by decide) (by decide) (by decide)

lemma detailsNone_errResult (t e : String) : detailsNone (errResult t e) :=
  ⟨rfl, rfl, rfl, rfl, rfl, rfl, rfl, rfl, rfl⟩

lemma detailsNone_noData : detailsNone noDataResult :=
  ⟨rfl, rfl, rfl, rfl, rfl, rfl, rfl, rfl, rfl⟩

lemma detailsNone_noRange : detailsNone noRangeResult :=
  ⟨rfl, rfl, rfl, rfl, rfl, rfl, rfl, rfl, rfl⟩

lemma mfOnly_mfResult (c : ℚ) : mfOnly (mfResult false c) :=
  ⟨⟨c, rfl⟩, rfl, rfl, rfl, rfl, rfl, rfl, rfl, rfl⟩

lemma mfWeekendOnly_mfResult (c : ℚ) : mfWeekendOnly (mfResult true c) :=
  ⟨⟨c, rfl, rfl⟩, rfl, rfl, rfl, rfl, rfl, rfl, rfl⟩

lemma dayOnly_dayResult (dp : ℕ) (h l c : ℚ) : dayOnly (dayResult dp h l c) :=
  ⟨⟨h, l, c, rfl, rfl, rfl⟩, rfl, rfl, rfl, rfl, rfl, rfl⟩

lemma weekendOnly_weekendResult (dp : ℕ) (fh fl fc mh ml mc : ℚ) :
    weekendOnly (weekendResult dp fh fl fc mh ml mc) :=
  ⟨⟨fh, fl, fc, mh, ml, mc, rfl, rfl, rfl, rfl, rfl, rfl⟩, rfl, rfl, rfl⟩

/-- If the first valid day at or after `start` is `start + j`, the forward
loop finds it with `j + 1` iterations of fuel. -/
lemma next_loop_finds (valid : ℤ → Bool) (j : ℕ) :
    ∀ start : ℤ, valid (start + (j : ℤ)) = true →
    (∀ i : ℕ, i < j → valid (start + (i : ℤ)) = false) →
    next_loop valid (j + 1) start = some (start + (j : ℤ)) := by
  induction j with
  | zero =>
    intro start h _
    simp only [Nat.cast_zero, add_zero] at h ⊢
    simp [next_loop, h]
  | succ j ih =>
    intro start h hmin
    have h0 : valid start = false := by
      simpa using hmin 0 (Nat.succ_pos j)
    have hstep : next_loop valid (j + 1 + 1) start
        = next_loop valid (j + 1) (start + 1) := by
      simp [next_loop, h0]
    have h' : valid (start + 1 + (j : ℤ)) = true := by
      convert h using 2
      push_cast
      ring
    have hmin' : ∀ i : ℕ, i < j → valid (start + 1 + (i : ℤ)) = false := by
      intro i hi
      have := hmin (i + 1) (by omega)
      convert this using 2
      push_cast
      ring
    rw [hstep, ih (start + 1) h' hmin']
    congr 1
    push_cast
    ring

/-- Backward analogue of `next_loop_finds`. -/
lemma prev_loop_finds (valid : ℤ → Bool) (j : ℕ) :
    ∀ start : ℤ, valid (start - (j : ℤ)) = true →
    (∀ i : ℕ, i < j → valid (start - (i : ℤ)) = false) →
    prev_loop valid (j + 1) start = some (start - (j : ℤ)) := by
  induction j with
  | zero =>
    intro start h _
    simp only [Nat.cast_zero, sub_zero] at h ⊢
    simp [prev_loop, h]
  | succ j ih =>
    intro start h hmin
    have h0 : valid start = false := by
      simpa using hmin 0 (Nat.succ_pos j)
    have hstep : prev_loop valid (j + 1 + 1) start
        = prev_loop valid (j + 1) (start - 1) := by
      simp [prev_loop, h0]
    have h' : valid (start - 1 - (j : ℤ)) = true := by
      convert h using 2
      push_cast
      ring
    have hmin' : ∀ i : ℕ, i < j → valid (start - 1 - (i : ℤ)) = false := by
      intro i hi
      have := hmin (i + 1) (by omega)
      convert this using 2
      push_cast
      ring
    rw [hstep, ih (start - 1) h' hmin']
    congr 1
    push_cast
    ring

/-- Helper: `main` passes the price and shares of a row through unchanged,
and computes `Total Value` by Python truthiness on the price. -/
lemma process_row_price_total (cal : Calendar)
    (provider : String → ℤ → Except String (Option Bar))
    (dod : ℤ) (dp : ℕ) (row : Row) :
    (process_row cal provider dod dp row).Price
      = (calculate_security_price cal provider row.Ticker row.ticker_type dod dp).Price ∧
    (process_row cal provider dod dp row).Total_Value
      = (match (calculate_security_price cal provider row.Ticker row.ticker_type dod dp).Price with
         | none => none
         | some p => if p = 0 then none
             else some (pyRound (p * row.Shares) dp)) := by
  simp only [process_row]
  constructor <;> (split <;> first | rfl | (split <;> rfl))

/-- C1: for a StockOrETF request whose target date is not a trading day,
when both the previous-trading-day bar and the next-trading-day bar are
present, each of the four extrema is rounded individually to the requested
precision before averaging, the returned price is
`round(((priorHigh + priorLow)/2 + (nextHigh + nextLow)/2)/2, precision)`
computed from those rounded values, and the rounded pre-average extrema are
exposed in the detail fields. -/
theorem stock_weekend_rounds_before_averaging (cal : Calendar)
    (provider : String → ℤ → Except String (Option Bar))
    (ticker tt : String) (dod : ℤ) (dp : ℕ)
    (hmf : is_mutual_fund tt = false) (hval : cal.valid dod = false)
    (fbar mbar : Bar)
    (hf : provider ticker (get_previous_business_day cal dod) = .ok (some fbar))
    (hm : provider ticker (get_next_business_day cal dod) = .ok (some mbar)) :
    (calculate_security_price cal provider ticker tt dod dp).Price
      = some (pyRound
          (((pyRound fbar.High dp + pyRound fbar.Low dp) / 2
            + (pyRound mbar.High dp + pyRound mbar.Low dp) / 2) / 2) dp)
    ∧ (calculate_security_price cal provider ticker tt dod dp).Friday_High
      = some (pyRound fbar.High dp)
    ∧ (calculate_security_price cal provider ticker tt dod dp).Friday_Low
      = some (pyRound fbar.Low dp)
    ∧ (calculate_security_price cal provider ticker tt dod dp).Monday_High
      = some (pyRound mbar.High dp)
    ∧ (calculate_security_price cal provider ticker tt dod dp).Monday_Low
      = some (pyRound mbar.Low dp) := by
  have hc : calculate_security_price cal provider ticker tt dod dp
      = weekendResult dp (pyRound fbar.High dp) (pyRound fbar.Low dp)
          (pyRound fbar.Close dp) (pyRound mbar.High dp)
          (pyRound mbar.Low dp) (pyRound mbar.Close dp) := by
    rw [calc_weekend cal provider ticker tt dod dp hmf hval, hf, hm]
  rw [hc]
  exact ⟨rfl, rfl, rfl, rfl, rfl⟩

/-- C2: for a StockOrETF request on a trading day with data, the single-day
branch is taken: the price is `round((round(high,p) + round(low,p))/2, p)`
and the single-day detail fields carry the rounded high/low/close. -/
theorem stock_trading_day_price (cal : Calendar)
    (provider : String → ℤ → Except String (Option Bar))
    (ticker tt : String) (dod : ℤ) (dp : ℕ)
    (hmf : is_mutual_fund tt = false) (hval : cal.valid dod = true)
    (bar : Bar) (hb : provider ticker dod = .ok (some bar)) :
    (calculate_security_price cal provider ticker tt dod dp).Price
      = some (pyRound ((pyRound bar.High dp + pyRound bar.Low dp) / 2) dp)
    ∧ (calculate_security_price cal provider ticker tt dod dp).High
      = some (pyRound bar.High dp)
    ∧ (calculate_security_price cal provider ticker tt dod dp).Low
      = some (pyRound bar.Low dp)
    ∧ (calculate_security_price cal provider ticker tt dod dp).Close
      = some (pyRound bar.Close dp) := by
  have hc : calculate_security_price cal provider ticker tt dod dp
      = dayResult dp (pyRound bar.High dp) (pyRound bar.Low dp)
          (pyRound bar.Close dp) := by
    rw [calc_day cal provider ticker tt dod dp hmf hval, hb]
  rw [hc]
  exact ⟨rfl, rfl, rfl, rfl⟩

/-- C3: for a MutualFund request the pricing date is the target date when
it is a trading day and the previous trading day otherwise; with a bar at
that date the price is the rounded close and the note names the convention
used ("date of death" pricing versus the prior-day "Friday" fallback);
with no bar the price is absent with note "No data available for this
date". -/
theorem mutual_fund_pricing (cal : Calendar)
    (provider : String → ℤ → Except String (Option Bar))
    (ticker tt : String) (dod : ℤ) (dp : ℕ)
    (hmf : is_mutual_fund tt = true) :
    (∀ bar : Bar,
      provider ticker (if cal.valid dod = true then dod
          else get_previous_business_day cal dod) = .ok (some bar) →
      (calculate_security_price cal provider ticker tt dod dp).Price
          = some (pyRound bar.Close dp) ∧
      (calculate_security_price cal provider ticker tt dod dp).Note
          = (if cal.valid dod = true
             then "Mutual Fund - Using date of death closing price"
             else "Mutual Fund - Using Friday closing price")) ∧
    (provider ticker (if cal.valid dod = true then dod
        else get_previous_business_day cal dod) = .ok none →
      (calculate_security_price cal provider ticker tt dod dp).Price = none ∧
      (calculate_security_price cal provider ticker tt dod dp).Note
          = "No data available for this date") := by
  constructor
  · intro bar hb
    have hc : calculate_security_price cal provider ticker tt dod dp
        = mfResult (!cal.valid dod) (pyRound bar.Close dp) := by
      rw [calc_mf cal provider ticker tt dod dp hmf, hb]
    rw [hc]
    cases hval : cal.valid dod <;> simp [hval, mfResult]
  · intro hb
    have hc : calculate_security_price cal provider ticker tt dod dp
        = noDataResult := by
      rw [calc_mf cal provider ticker tt dod dp hmf, hb]
    rw [hc]
    exact ⟨rfl, rfl⟩

/-- C8: for a StockOrETF request on a non-trading day, if the previous-day
or next-day fetch succeeds but either bar is missing, the price is absent
and the note is exactly "No data available for this date range". -/
theorem stock_weekend_missing_bar (cal : Calendar)
    (provider : String → ℤ → Except String (Option Bar))
    (ticker tt : String) (dod : ℤ) (dp : ℕ)
    (hmf : is_mutual_fund tt = false) (hval : cal.valid dod = false)
    (fh mh : Option Bar)
    (hf : provider ticker (get_previous_business_day cal dod) = .ok fh)
    (hm : provider ticker (get_next_business_day cal dod) = .ok mh)
    (hmiss : fh = none ∨ mh = none) :
    (calculate_security_price cal provider ticker tt dod dp).Price = none ∧
    (calculate_security_price cal provider ticker tt dod dp).Note
      = "No data available for this date range" := by
  rcases hmiss with rfl | rfl
  · have hc : calculate_security_price cal provider ticker tt dod dp
        = noRangeResult := by
      rw [calc_weekend cal provider ticker tt dod dp hmf hval, hf, hm]
    rw [hc]
    exact ⟨rfl, rfl⟩
  · have hc : calculate_security_price cal provider ticker tt dod dp
        = noRangeResult := by
      rw [calc_weekend cal provider ticker tt dod dp hmf hval, hf, hm]
      cases fh <;> rfl
    rw [hc]
    exact ⟨rfl, rfl⟩

/-- C5: `get_next_business_day` returns a date strictly after its argument
that the calendar marks as a trading day, and `get_previous_business_day`
one strictly before; in particular neither ever returns the argument
itself, even when it is a trading day. -/
theorem business_day_strict_adjacent (cal : Calendar) (d : ℤ) :
    d < get_next_business_day cal d ∧
    cal.valid (get_next_business_day cal d) = true ∧
    get_previous_business_day cal d < d ∧
    cal.valid (get_previous_business_day cal d) = true := by
  refine ⟨?_, Nat.find_spec (cal.has_next d), ?_, Nat.find_spec (cal.has_prev d)⟩
  · unfold get_next_business_day
    omega
  · unfold get_previous_business_day
    omega

/-- C9: the day-stepping `while` loops of both business-day helpers
terminate for every input date — with enough fuel the fuel-indexed
transcription of each loop returns (rather than running out), and it
returns exactly the first trading day in its direction. -/
theorem business_day_loops_terminate (cal : Calendar) (d : ℤ) :
    (∃ fuel : ℕ, next_loop cal.valid fuel (d + 1)
        = some (get_next_business_day cal d)) ∧
    (∃ fuel : ℕ, prev_loop cal.valid fuel (d - 1)
        = some (get_previous_business_day cal d)) := by
  constructor
  · refine ⟨Nat.find (cal.has_next d) + 1, ?_⟩
    have hmin : ∀ i : ℕ, i < Nat.find (cal.has_next d) →
        cal.valid (d + 1 + (i : ℤ)) = false := by
      intro i hi
      cases hb : cal.valid (d + 1 + (i : ℤ)) with
      | false => rfl
      | true => exact absurd hb (Nat.find_min (cal.has_next d) hi)
    exact next_loop_finds cal.valid (Nat.find (cal.has_next d)) (d + 1)
      (Nat.find_spec (cal.has_next d)) hmin
  · refine ⟨Nat.find (cal.has_prev d) + 1, ?_⟩
    have hmin : ∀ i : ℕ, i < Nat.find (cal.has_prev d) →
        cal.valid (d - 1 - (i : ℤ)) = false := by
      intro i hi
      cases hb : cal.valid (d - 1 - (i : ℤ)) with
      | false => rfl
      | true => exact absurd hb (Nat.find_min (cal.has_prev d) hi)
    exact prev_loop_finds cal.valid (Nat.find (cal.has_prev d)) (d - 1)
      (Nat.find_spec (cal.has_prev d)) hmin

/-- C10: whenever the returned price is absent, every one of the nine
detail fields of the result dictionary is also absent — a failed valuation
never carries partial price details. -/
theorem absent_price_no_details (cal : Calendar)
    (provider : String → ℤ → Except String (Option Bar))
    (ticker tt : String) (dod : ℤ) (dp : ℕ)
    (hnone : (calculate_security_price cal provider ticker tt dod dp).Price = none) :
    detailsNone (calculate_security_price cal provider ticker tt dod dp) := by
  cases hmf : is_mutual_fund tt
  case true =>
    rw [calc_mf cal provider ticker tt dod dp hmf] at hnone ⊢
    rcases hp : provider ticker (if cal.valid dod = true then dod
        else get_previous_business_day cal dod) with e | ob
    · exact detailsNone_errResult ticker e
    · rcases ob with _ | bar
      · exact detailsNone_noData
      · rw [hp] at hnone
        simp [mfResult] at hnone
  case false =>
    cases hval : cal.valid dod
    case false =>
      rw [calc_weekend cal provider ticker tt dod dp hmf hval] at hnone ⊢
      rcases hpf : provider ticker (get_previous_business_day cal dod) with e | fh
      · exact detailsNone_errResult ticker e
      · rcases hpm : provider ticker (get_next_business_day cal dod) with e | mh
        · exact detailsNone_errResult ticker e
        · rcases fh with _ | fbar
          · cases mh <;> exact detailsNone_noRange
          · rcases mh with _ | mbar
            · exact detailsNone_noRange
            · rw [hpf, hpm] at hnone
              simp [weekendResult] at hnone
    case true =>
      rw [calc_day cal provider ticker tt dod dp hmf hval] at hnone ⊢
      rcases hp : provider ticker dod with e | ob
      · exact detailsNone_errResult ticker e
      · rcases ob with _ | bar
        · exact detailsNone_noData
        · rw [hp] at hnone
          simp [dayResult] at hnone

/-- C4: any fault raised by the price-data collaborator, at any of the
three fetch sites, is caught at the function boundary and converted into
the error dictionary with absent price and a note embedding the ticker and
the fault's description; and the per-row loop of `main` yields exactly one
output record per input row. -/
theorem fault_containment (cal : Calendar)
    (provider : String → ℤ → Except String (Option Bar))
    (ticker tt : String) (dod : ℤ) (dp : ℕ) :
    (is_mutual_fund tt = true → ∀ e : String,
      provider ticker (if cal.valid dod = true then dod
          else get_previous_business_day cal dod) = .error e →
      calculate_security_price cal provider ticker tt dod dp
        = errResult ticker e) ∧
    (is_mutual_fund tt = false → cal.valid dod = false → ∀ e : String,
      provider ticker (get_previous_business_day cal dod) = .error e →
      calculate_security_price cal provider ticker tt dod dp
        = errResult ticker e) ∧
    (is_mutual_fund tt = false → cal.valid dod = false →
      ∀ (fh : Option Bar) (e : String),
      provider ticker (get_previous_business_day cal dod) = .ok fh →
      provider ticker (get_next_business_day cal dod) = .error e →
      calculate_security_price cal provider ticker tt dod dp
        = errResult ticker e) ∧
    (is_mutual_fund tt = false → cal.valid dod = true → ∀ e : String,
      provider ticker dod = .error e →
      calculate_security_price cal provider ticker tt dod dp
        = errResult ticker e) ∧
    (∀ rows : List Row,
      (process_rows cal provider dod dp rows).length = rows.length) := by
  refine ⟨?_, ?_, ?_, ?_, ?_⟩
  · intro hmf e hp
    rw [calc_mf cal provider ticker tt dod dp hmf, hp]
  · intro hmf hval e hp
    rw [calc_weekend cal provider ticker tt dod dp hmf hval, hp]
  · intro hmf hval fh e hpf hpm
    rw [calc_weekend cal provider ticker tt dod dp hmf hval, hpf, hpm]
  · intro hmf hval e hp
    rw [calc_day cal provider ticker tt dod dp hmf hval, hp]
  · intro rows
    simp [process_rows]

/-- A failed result settles both discipline conjuncts at once. -/
lemma discipline_failure_case {P : Prop} (r : Result)
    (hp : r.Price = none) (hn : isFailureNote r.Note) :
    (r.Price = none ↔ isFailureNote r.Note) ∧ (r.Price ≠ none → P) :=
  ⟨iff_of_true hp hn, fun h => absurd hp h⟩

/-- A successful result settles both discipline conjuncts at once. -/
lemma discipline_success_case {P : Prop} (r : Result) (c : ℚ)
    (hp : r.Price = some c) (hn : ¬ isFailureNote r.Note) (hP : P) :
    (r.Price = none ↔ isFailureNote r.Note) ∧ (r.Price ≠ none → P) :=
  ⟨iff_of_false (by simp [hp]) hn, fun _ => hP⟩

/-- C6, amended: the price is absent exactly when the note describes a
data-unavailable or error condition, and a successful result populates
exactly the detail variant of its branch — except that a mutual-fund
result priced by the prior-day fallback additionally mirrors the closing
price into the `Friday_Close` field. -/
theorem variant_discipline_amended (cal : Calendar)
    (provider : String → ℤ → Except String (Option Bar))
    (ticker tt : String) (dod : ℤ) (dp : ℕ) :
    ((calculate_security_price cal provider ticker tt dod dp).Price = none ↔
      isFailureNote (calculate_security_price cal provider ticker tt dod dp).Note) ∧
    ((calculate_security_price cal provider ticker tt dod dp).Price ≠ none →
      (is_mutual_fund tt = true →
        (if cal.valid dod = true
         then mfOnly (calculate_security_price cal provider ticker tt dod dp)
         else mfWeekendOnly (calculate_security_price cal provider ticker tt dod dp))) ∧
      (is_mutual_fund tt = false →
        (if cal.valid dod = true
         then dayOnly (calculate_security_price cal provider ticker tt dod dp)
         else weekendOnly (calculate_security_price cal provider ticker tt dod dp)))) := by
  cases hmf : is_mutual_fund tt
  case true =>
    cases hval : cal.valid dod
    case true =>
      have hc0 : calculate_security_price cal provider ticker tt dod dp
          = (match provider ticker dod with
             | .error e => errResult ticker e
             | .ok none => noDataResult
             | .ok (some hist) => mfResult false (pyRound hist.Close dp)) := by
        rw [calc_mf cal provider ticker tt dod dp hmf]
        simp [hval]
      rcases hp : provider ticker dod with e | ob
      · have hc : calculate_security_price cal provider ticker tt dod dp
            = errResult ticker e := by rw [hc0, hp]
        rw [hc]
        exact discipline_failure_case _ rfl (err_note_failure ticker e)
      · rcases ob with _ | bar
        · have hc : calculate_security_price cal provider ticker tt dod dp
              = noDataResult := by rw [hc0, hp]
          rw [hc]
          exact discipline_failure_case _ rfl (Or.inl rfl)
        · have hc : calculate_security_price cal provider ticker tt dod dp
              = mfResult false (pyRound bar.Close dp) := by rw [hc0, hp]
          rw [hc]
          refine discipline_success_case _ _ rfl (mf_note_not_failure false _)
            ⟨fun _ => ?_, fun hmf2 => ?_⟩
          · rw [if_pos rfl]
            exact mfOnly_mfResult _
          · exact Bool.noConfusion hmf2
    case false =>
      have hc0 : calculate_security_price cal provider ticker tt dod dp
          = (match provider ticker (get_previous_business_day cal dod) with
             | .error e => errResult ticker e
             | .ok none => noDataResult
             | .ok (some hist) => mfResult true (pyRound hist.Close dp)) := by
        rw [calc_mf cal provider ticker tt dod dp hmf]
        simp [hval]
      rcases hp : provider ticker (get_previous_business_day cal dod) with e | ob
      · have hc : calculate_security_price cal provider ticker tt dod dp
            = errResult ticker e := by rw [hc0, hp]
        rw [hc]
        exact discipline_failure_case _ rfl (err_note_failure ticker e)
      · rcases ob with _ | bar
        · have hc : calculate_security_price cal provider ticker tt dod dp
              = noDataResult := by rw [hc0, hp]
          rw [hc]
          exact discipline_failure_case _ rfl (Or.inl rfl)
        · have hc : calculate_security_price cal provider ticker tt dod dp
              = mfResult true (pyRound bar.Close dp) := by rw [hc0, hp]
          rw [hc]
          refine discipline_success_case _ _ rfl (mf_note_not_failure true _)
            ⟨fun _ => ?_, fun hmf2 => ?_⟩
          · rw [if_neg (by simp)]
            exact mfWeekendOnly_mfResult _
          · exact Bool.noConfusion hmf2
  case false =>
    cases hval : cal.valid dod
    case true =>
      rcases hp : provider ticker dod with e | ob
      · have hc : calculate_security_price cal provider ticker tt dod dp
            = errResult ticker e := by
          rw [calc_day cal provider ticker tt dod dp hmf hval, hp]
        rw [hc]
        exact discipline_failure_case _ rfl (err_note_failure ticker e)
      · rcases ob with _ | bar
        · have hc : calculate_security_price cal provider ticker tt dod dp
              = noDataResult := by
            rw [calc_day cal provider ticker tt dod dp hmf hval, hp]
          rw [hc]
          exact discipline_failure_case _ rfl (Or.inl rfl)
        · have hc : calculate_security_price cal provider ticker tt dod dp
              = dayResult dp (pyRound bar.High dp) (pyRound bar.Low dp)
                  (pyRound bar.Close dp) := by
            rw [calc_day cal provider ticker tt dod dp hmf hval, hp]
          rw [hc]
          refine discipline_success_case _ _ rfl (day_note_not_failure _ _ _ _)
            ⟨fun hmf2 => ?_, fun _ => ?_⟩
          · exact Bool.noConfusion hmf2
          · rw [if_pos rfl]
            exact dayOnly_dayResult _ _ _ _
    case false =>
      rcases hpf : provider ticker (get_previous_business_day cal dod) with e | fh
      · have hc : calculate_security_price cal provider ticker tt dod dp
            = errResult ticker e := by
          rw [calc_weekend cal provider ticker tt dod dp hmf hval, hpf]
        rw [hc]
        exact discipline_failure_case _ rfl (err_note_failure ticker e)
      · rcases hpm : provider ticker (get_next_business_day cal dod) with e | mh
        · have hc : calculate_security_price cal provider ticker tt dod dp
              = errResult ticker e := by
            rw [calc_weekend cal provider ticker tt dod dp hmf hval, hpf, hpm]
          rw [hc]
          exact discipline_failure_case _ rfl (err_note_failure ticker e)
        · rcases fh with _ | fbar
          · have hc : calculate_security_price cal provider ticker tt dod dp
                = noRangeResult := by
              rw [calc_weekend cal provider ticker tt dod dp hmf hval, hpf, hpm]
            rw [hc]
            exact discipline_failure_case _ rfl (Or.inr (Or.inl rfl))
          · rcases mh with _ | mbar
            · have hc : calculate_security_price cal provider ticker tt dod dp
                  = noRangeResult := by
                rw [calc_weekend cal provider ticker tt dod dp hmf hval, hpf, hpm]
              rw [hc]
              exact discipline_failure_case _ rfl (Or.inr (Or.inl rfl))
            · have hc : calculate_security_price cal provider ticker tt dod dp
                  = weekendResult dp (pyRound fbar.High dp) (pyRound fbar.Low dp)
                      (pyRound fbar.Close dp) (pyRound mbar.High dp)
                      (pyRound mbar.Low dp) (pyRound mbar.Close dp) := by
                rw [calc_weekend cal provider ticker tt dod dp hmf hval, hpf, hpm]
              rw [hc]
              refine discipline_success_case _ _ rfl
                (weekend_note_not_failure _ _ _ _ _ _ _)
                ⟨fun hmf2 => ?_, fun _ => ?_⟩
              · exact Bool.noConfusion hmf2
              · rw [if_neg (by simp)]
                exact weekendOnly_weekendResult _ _ _ _ _ _ _

/-- C6, counterexample: a mutual-fund request on a non-trading day with
data populates the `Friday_Close` detail field in addition to the closing
price, so the result does not carry the closing price only. -/
theorem variant_discipline_counterexample :
    is_mutual_fund "Mutual Fund" = true ∧
    weekdayCal.valid 5 = false ∧
    (calculate_security_price weekdayCal (constBarProvider b1)
        "FUND" "Mutual Fund" 5 2).Price = some 1 ∧
    (calculate_security_price weekdayCal (constBarProvider b1)
        "FUND" "Mutual Fund" 5 2).Close = some 1 ∧
    (calculate_security_price weekdayCal (constBarProvider b1)
        "FUND" "Mutual Fund" 5 2).Friday_Close = some 1 := by
  have hmf : is_mutual_fund "Mutual Fund" = true := by decide
  have hval : weekdayCal.valid 5 = false := by decide
  have hc : calculate_security_price weekdayCal (constBarProvider b1)
      "FUND" "Mutual Fund" 5 2 = mfResult true (pyRound b1.Close 2) := by
    rw [calc_mf weekdayCal (constBarProvider b1) "FUND" "Mutual Fund" 5 2 hmf]
    simp [constBarProvider, hval]
  have h1 : pyRound b1.Close 2 = 1 := by norm_num [b1, pyRound, roundHalfEven]
  rw [hc, h1]
  exact ⟨hmf, hval, rfl, rfl, rfl⟩

/-- C7, amended: the output price column is the engine's price; the total
value is `round(price * shares, precision)` when the price is present and
nonzero, and absent when the price is absent — but also absent when the
price is present and exactly zero, because the source tests the price by
Python truthiness rather than by presence. -/
theorem total_value_amended (cal : Calendar)
    (provider : String → ℤ → Except String (Option Bar))
    (dod : ℤ) (dp : ℕ) (row : Row) :
    ((process_row cal provider dod dp row).Price
      = (calculate_security_price cal provider row.Ticker row.ticker_type dod dp).Price) ∧
    ((process_row cal provider dod dp row).Price = none →
      (process_row cal provider dod dp row).Total_Value = none) ∧
    (∀ p : ℚ, (process_row cal provider dod dp row).Price = some p → p ≠ 0 →
      (process_row cal provider dod dp row).Total_Value
        = some (pyRound (p * row.Shares) dp)) ∧
    ((process_row cal provider dod dp row).Price = some 0 →
      (process_row cal provider dod dp row).Total_Value = none) := by
  obtain ⟨hP, hT⟩ := process_row_price_total cal provider dod dp row
  refine ⟨hP, ?_, ?_, ?_⟩
  · intro h0
    rw [hP] at h0
    rw [hT, h0]
  · intro p hp hnz
    rw [hP] at hp
    rw [hT, hp]
    simp [hnz]
  · intro hp
    rw [hP] at hp
    rw [hT, hp]
    simp

/-- C7, counterexample: a stock whose bar is entirely zero prices to
exactly 0; the price is present but the total value is absent, because
line 222 tests the price for truthiness, and `0.0` is falsy in Python. -/
theorem total_value_zero_counterexample :
    (process_row weekdayCal (constBarProvider b0) 0 2
        ⟨"ZERO", 10, "Stock"⟩).Price = some 0 ∧
    (process_row weekdayCal (constBarProvider b0) 0 2
        ⟨"ZERO", 10, "Stock"⟩).Total_Value = none := by
  obtain ⟨hP, hT⟩ := process_row_price_total weekdayCal (constBarProvider b0)
    0 2 ⟨"ZERO", 10, "Stock"⟩
  have hmf : is_mutual_fund "Stock" = false := by decide
  have hval : weekdayCal.valid 0 = true := by decide
  have hc : calculate_security_price weekdayCal (constBarProvider b0)
      "ZERO" "Stock" 0 2
      = dayResult 2 (pyRound b0.High 2) (pyRound b0.Low 2) (pyRound b0.Close 2) := by
    rw [calc_day weekdayCal (constBarProvider b0) "ZERO" "Stock" 0 2 hmf hval]
    simp [constBarProvider]
  have hprice : (calculate_security_price weekdayCal (constBarProvider b0)
      "ZERO" "Stock" 0 2).Price = some 0 := by
    rw [hc]
    show some (pyRound ((pyRound b0.High 2 + pyRound b0.Low 2) / 2) 2) = some 0
    norm_num [b0, pyRound, roundHalfEven]
  constructor
  · rw [hP]
    exact hprice
  · rw [hT, hprice]
    simp

/-- Witness for C1 at a concrete Saturday with identical surrounding bars. -/
theorem stock_weekend_witness :
    is_mutual_fund "Stock" = false ∧
    weekdayCal.valid 5 = false ∧
    (calculate_security_price weekdayCal (constBarProvider b2)
        "SPY" "Stock" 5 2).Price = some 100 ∧
    (calculate_security_price weekdayCal (constBarProvider b2)
        "SPY" "Stock" 5 2).Friday_High = some 101 ∧
    (calculate_security_price weekdayCal (constBarProvider b2)
        "SPY" "Stock" 5 2).Monday_Low = some 99 := by
  have hmf : is_mutual_fund "Stock" = false := by decide
  have hval : weekdayCal.valid 5 = false := by decide
  have h := stock_weekend_rounds_before_averaging weekdayCal (constBarProvider b2)
    "SPY" "Stock" 5 2 hmf hval b2 b2 rfl rfl
  refine ⟨hmf, hval, ?_, ?_, ?_⟩
  · rw [h.1]
    norm_num [b2, pyRound, roundHalfEven]
  · rw [h.2.1]
    norm_num [b2, pyRound, roundHalfEven]
  · rw [h.2.2.2.2]
    norm_num [b2, pyRound, roundHalfEven]

/-- Witness for C2 at a concrete Monday. -/
theorem stock_trading_day_witness :
    is_mutual_fund "Stock" = false ∧
    weekdayCal.valid 0 = true ∧
    (calculate_security_price weekdayCal (constBarProvider b2)
        "SPY" "Stock" 0 2).Price = some 100 ∧
    (calculate_security_price weekdayCal (constBarProvider b2)
        "SPY" "Stock" 0 2).High = some 101 := by
  have hmf : is_mutual_fund "Stock" = false := by decide
  have hval : weekdayCal.valid 0 = true := by decide
  have h := stock_trading_day_price weekdayCal (constBarProvider b2)
    "SPY" "Stock" 0 2 hmf hval b2 rfl
  refine ⟨hmf, hval, ?_, ?_⟩
  · rw [h.1]
    norm_num [b2, pyRound, roundHalfEven]
  · rw [h.2.1]
    norm_num [b2, pyRound, roundHalfEven]

/-- Witness for C3 at a concrete trading day. -/
theorem mutual_fund_pricing_witness :
    is_mutual_fund "Mutual Fund" = true ∧
    (calculate_security_price weekdayCal (constBarProvider b2)
        "FUND" "Mutual Fund" 0 2).Price = some 100 ∧
    (calculate_security_price weekdayCal (constBarProvider b2)
        "FUND" "Mutual Fund" 0 2).Note
      = "Mutual Fund - Using date of death closing price" := by
  have hmf : is_mutual_fund "Mutual Fund" = true := by decide
  have hval : weekdayCal.valid 0 = true := by decide
  have h := mutual_fund_pricing weekdayCal (constBarProvider b2)
    "FUND" "Mutual Fund" 0 2 hmf
  refine ⟨hmf, ?_, ?_⟩
  · rw [(h.1 b2 rfl).1]
    norm_num [b2, pyRound, roundHalfEven]
  · rw [(h.1 b2 rfl).2, if_pos hval]

/-- Witness for C4: a provider that always raises yields the error record,
and a one-row batch yields exactly one output record. -/
theorem fault_containment_witness :
    is_mutual_fund "Mutual Fund" = true ∧
    calculate_security_price weekdayCal (failProvider "boom")
        "TKR" "Mutual Fund" 0 2 = errResult "TKR" "boom" ∧
    (process_rows weekdayCal (failProvider "boom") 0 2
        [⟨"TKR", 1, "Mutual Fund"⟩]).length = 1 := by
  have hmf : is_mutual_fund "Mutual Fund" = true := by decide
  have h := fault_containment weekdayCal (failProvider "boom")
    "TKR" "Mutual Fund" 0 2
  exact ⟨hmf, h.1 hmf "boom" rfl, h.2.2.2.2 [⟨"TKR", 1, "Mutual Fund"⟩]⟩

/-- Witness for C6 (amended) at a concrete trading day. -/
theorem variant_discipline_witness :
    (calculate_security_price weekdayCal (constBarProvider b2)
        "SPY" "Stock" 0 2).Price ≠ none ∧
    dayOnly (calculate_security_price weekdayCal (constBarProvider b2)
        "SPY" "Stock" 0 2) := by
  have hmf : is_mutual_fund "Stock" = false := by decide
  have hval : weekdayCal.valid 0 = true := by decide
  have hc : calculate_security_price weekdayCal (constBarProvider b2)
      "SPY" "Stock" 0 2
      = dayResult 2 (pyRound b2.High 2) (pyRound b2.Low 2) (pyRound b2.Close 2) := by
    rw [calc_day weekdayCal (constBarProvider b2) "SPY" "Stock" 0 2 hmf hval]
    simp [constBarProvider]
  have hne : (calculate_security_price weekdayCal (constBarProvider b2)
      "SPY" "Stock" 0 2).Price ≠ none := by
    rw [hc]
    simp [dayResult]
  have h := ((variant_discipline_amended weekdayCal (constBarProvider b2)
    "SPY" "Stock" 0 2).2 hne).2 hmf
  rw [if_pos hval] at h
  exact ⟨hne, h⟩

/-- Witness for C7 (amended) at a concrete trading day with a nonzero
price. -/
theorem total_value_witness :
    (process_row weekdayCal (constBarProvider b2) 0 2
        ⟨"SPY", 10, "Stock"⟩).Price = some 100 ∧
    (process_row weekdayCal (constBarProvider b2) 0 2
        ⟨"SPY", 10, "Stock"⟩).Total_Value = some 1000 := by
  have h := total_value_amended weekdayCal (constBarProvider b2) 0 2
    ⟨"SPY", 10, "Stock"⟩
  have hmf : is_mutual_fund "Stock" = false := by decide
  have hval : weekdayCal.valid 0 = true := by decide
  have hc : calculate_security_price weekdayCal (constBarProvider b2)
      "SPY" "Stock" 0 2
      = dayResult 2 (pyRound b2.High 2) (pyRound b2.Low 2) (pyRound b2.Close 2) := by
    rw [calc_day weekdayCal (constBarProvider b2) "SPY" "Stock" 0 2 hmf hval]
    simp [constBarProvider]
  have hprice : (process_row weekdayCal (constBarProvider b2) 0 2
      ⟨"SPY", 10, "Stock"⟩).Price = some 100 := by
    rw [h.1]
    show (calculate_security_price weekdayCal (constBarProvider b2)
      "SPY" "Stock" 0 2).Price = some 100
    rw [hc]
    show some (pyRound ((pyRound b2.High 2 + pyRound b2.Low 2) / 2) 2) = some 100
    norm_num [b2, pyRound, roundHalfEven]
  refine ⟨hprice, ?_⟩
  have ht := h.2.2.1 100 hprice (by norm_num)
  rw [ht]
  show some (pyRound ((100 : ℚ) * 10) 2) = some 1000
  norm_num [pyRound, roundHalfEven]

/-- Witness for C8 at a concrete Saturday with an empty-frame provider. -/
theorem stock_weekend_missing_witness :
    is_mutual_fund "Stock" = false ∧
    weekdayCal.valid 5 = false ∧
    (calculate_security_price weekdayCal emptyProvider
        "SPY" "Stock" 5 2).Price = none ∧
    (calculate_security_price weekdayCal emptyProvider
        "SPY" "Stock" 5 2).Note = "No data available for this date range" := by
  have hmf : is_mutual_fund "Stock" = false := by decide
  have hval : weekdayCal.valid 5 = false := by decide
  have h := stock_weekend_missing_bar weekdayCal emptyProvider
    "SPY" "Stock" 5 2 hmf hval none none rfl rfl (Or.inl rfl)
  exact ⟨hmf, hval, h.1, h.2⟩

/-- Witness for C10: an empty-frame mutual-fund lookup has absent price
and every detail field absent. -/
theorem absent_price_no_details_witness :
    (calculate_security_price weekdayCal emptyProvider
        "FUND" "Mutual Fund" 0 2).Price = none ∧
    detailsNone (calculate_security_price weekdayCal emptyProvider
        "FUND" "Mutual Fund" 0 2) := by
  have hmf : is_mutual_fund "Mutual Fund" = true := by decide
  have hnone : (calculate_security_price weekdayCal emptyProvider
      "FUND" "Mutual Fund" 0 2).Price = none := by
    rw [calc_mf weekdayCal emptyProvider "FUND" "Mutual Fund" 0 2 hmf]
    simp [emptyProvider, noDataResult]
  exact ⟨hnone, absent_price_no_details weekdayCal emptyProvider
    "FUND" "Mutual Fund" 0 2 hnone⟩
